import Mathlib

/-!
# Verification of the NodeModal edit pipeline

Shallow embedding of `src/features/modals/NodeModal/index.tsx`: the node-row
normalizer (`normalizeNodeData`), the path formatter (`jsonPathToString`), the
edited-text parser with type-directed coercion fallback, and the
`saveEdit` orchestration, together with the modal's edit-session state machine.

JavaScript runtime pieces the component relies on are modelled explicitly:
`JSON.parse` as `jsonParse` (strict JSON grammar, `Option`-valued in place of a
thrown `SyntaxError`), `Number(...)` combined with the `Number.isFinite` guard
as `jsNumberFinite` (returning `none` for NaN and the infinities), and
`JSON.stringify(obj, null, 2)` as `stringify2`.  Numbers are modelled as exact
rationals (`ℚ`): the claims under verification do not depend on IEEE-754
rounding, only on finiteness and on concrete small values.
-/

/-- A JSON value as produced by `JSON.parse` / consumed by `JSON.stringify`.
Objects keep their fields in insertion order, as JavaScript objects do. -/
inductive JValue where
  | null : JValue
  | bool (b : Bool) : JValue
  | num (q : ℚ) : JValue
  | str (s : String) : JValue
  | arr (elems : List JValue) : JValue
  | obj (fields : List (String × JValue)) : JValue

/-- Whitespace accepted between tokens by the JSON grammar (space, tab,
line feed, carriage return), as in `JSON.parse`. -/
def jsonWs (c : Char) : Bool :=
  c = ' ' || c = '\t' || c = '\n' || c = '\r'

/-- Drop leading JSON whitespace. -/
def skipWs : List Char → List Char
  | [] => []
  | c :: cs => if jsonWs c then skipWs cs else c :: cs

/-- ASCII decimal digit test. -/
def isDig (c : Char) : Bool := 48 ≤ c.toNat && c.toNat ≤ 57

/-- Numeric value of an ASCII decimal digit. -/
def digVal (c : Char) : Nat := c.toNat - 48

/-- Value of a big-endian string of decimal digits. -/
def digitsToNat (cs : List Char) : Nat :=
  cs.foldl (fun a c => a * 10 + digVal c) 0

/-- Value of a hexadecimal digit, `none` if the character is not one. -/
def hexVal (c : Char) : Option Nat :=
  if 48 ≤ c.toNat ∧ c.toNat ≤ 57 then some (c.toNat - 48)
  else if 97 ≤ c.toNat ∧ c.toNat ≤ 102 then some (c.toNat - 87)
  else if 65 ≤ c.toNat ∧ c.toNat ≤ 70 then some (c.toNat - 55)
  else none

/-- The rational denoted by a JSON number literal split into integer digits,
fraction digits and a signed decimal exponent: `digits × 10 ^ (exp − |frac|)`.
Built with `mkRat` over integer arithmetic so that it evaluates by kernel
reduction. -/
def decValue (intPart fracPart : List Char) (exp : ℤ) : ℚ :=
  let digits : ℤ := Int.ofNat (digitsToNat (intPart ++ fracPart))
  let e : ℤ := exp - Int.ofNat fracPart.length
  if 0 ≤ e then mkRat (digits * Int.ofNat (10 ^ e.toNat)) 1
  else mkRat digits (10 ^ (-e).toNat)

/-- Decode one escape sequence of the JSON string grammar (the characters
after the backslash); returns the decoded character and the rest. -/
def decodeEscape : List Char → Option (Char × List Char)
  | [] => none
  | e :: cs' =>
    if e = '"' then some ('"', cs')
    else if e = '\\' then some ('\\', cs')
    else if e = '/' then some ('/', cs')
    else if e = 'b' then some ('\x08', cs')
    else if e = 'f' then some ('\x0c', cs')
    else if e = 'n' then some ('\n', cs')
    else if e = 'r' then some ('\r', cs')
    else if e = 't' then some ('\t', cs')
    else if e = 'u' then
      match cs' with
      | h₁ :: h₂ :: h₃ :: h₄ :: cs'' =>
        match hexVal h₁, hexVal h₂, hexVal h₃, hexVal h₄ with
        | some a, some b, some c, some d =>
          some (Char.ofNat (((a * 16 + b) * 16 + c) * 16 + d), cs'')
        | _, _, _, _ => none
      | _ => none
    else none

/-- Fuel-indexed body of a JSON string literal (after the opening quote),
handling the escape sequences of the JSON grammar.  Returns the decoded
characters and the remaining input after the closing quote.  Unescaped control
characters are rejected, as `JSON.parse` does. -/
def parseStringAux : Nat → List Char → Option (List Char × List Char)
  | 0, _ => none
  | _, [] => none
  | fuel + 1, c :: cs =>
    if c = '"' then some ([], cs)
    else if c = '\\' then
      match decodeEscape cs with
      | some (ch, rest) =>
        match parseStringAux fuel rest with
        | some (tail, rest') => some (ch :: tail, rest')
        | none => none
      | none => none
    else if c.toNat < 32 then none
    else
      match parseStringAux fuel cs with
      | some (tail, rest') => some (c :: tail, rest')
      | none => none

/-- Body of a JSON string literal; each step of `parseStringAux` consumes at
least one character, so the input's length is enough fuel. -/
def parseStringBody (cs : List Char) : Option (List Char × List Char) :=
  parseStringAux (cs.length + 1) cs

/-- Parse the digits of a JSON number starting at the current position:
`int frac? exp?` where `int` is `0` or a nonzero-led digit run (a leading `-`
has already been consumed by the caller).  Returns the value and the rest. -/
def parseNumBody (cs : List Char) : Option (ℚ × List Char) :=
  let ip := cs.takeWhile isDig
  let r1 := cs.dropWhile isDig
  -- JSON integer part: "0" alone, or a run not starting with '0'
  if ip = [] then none
  else if ip.length > 1 ∧ ip.headI = '0' then none
  else
    let (fp, r2) :=
      match r1 with
      | '.' :: rest => (rest.takeWhile isDig, rest.dropWhile isDig)
      | _ => (([] : List Char), r1)
    -- a '.' must be followed by at least one digit
    if r1.head? = some '.' ∧ fp = [] then none
    else
      match r2 with
      | 'e' :: rest | 'E' :: rest =>
        let (sgn, rest2) : ℤ × List Char :=
          match rest with
          | '+' :: t => (1, t)
          | '-' :: t => (-1, t)
          | _ => (1, rest)
        let ed := rest2.takeWhile isDig
        if ed = [] then none
        else some (decValue ip fp (sgn * (digitsToNat ed : ℤ)), rest2.dropWhile isDig)
      | _ => some (decValue ip fp 0, r2)

mutual

/-- Fuel-indexed recursive-descent parser for a JSON value, modelling
`JSON.parse`'s grammar.  Leading whitespace is skipped; the value and the
unconsumed remainder are returned. -/
def parseVal : Nat → List Char → Option (JValue × List Char)
  | 0, _ => none
  | fuel + 1, cs =>
    match skipWs cs with
    | [] => none
    | c :: rest =>
      if c = 'n' then
        match rest with
        | 'u' :: 'l' :: 'l' :: r => some (.null, r)
        | _ => none
      else if c = 't' then
        match rest with
        | 'r' :: 'u' :: 'e' :: r => some (.bool true, r)
        | _ => none
      else if c = 'f' then
        match rest with
        | 'a' :: 'l' :: 's' :: 'e' :: r => some (.bool false, r)
        | _ => none
      else if c = '"' then
        match parseStringBody rest with
        | some (chars, r) => some (.str (String.mk chars), r)
        | none => none
      else if c = '[' then
        match skipWs rest with
        | ']' :: r => some (.arr [], r)
        | _ =>
          match parseItems fuel rest with
          | some (items, r) => some (.arr items, r)
          | none => none
      else if c = '{' then
        match skipWs rest with
        | '}' :: r => some (.obj [], r)
        | _ =>
          match parseFields fuel rest with
          | some (fields, r) => some (.obj fields, r)
          | none => none
      else if c = '-' then
        match parseNumBody rest with
        | some (q, r) => some (.num (-q), r)
        | none => none
      else if isDig c then
        match parseNumBody (c :: rest) with
        | some (q, r) => some (.num q, r)
        | none => none
      else none

/-- Parse one or more comma-separated array items followed by `]`. -/
def parseItems : Nat → List Char → Option (List JValue × List Char)
  | 0, _ => none
  | fuel + 1, cs =>
    match parseVal fuel cs with
    | some (v, rest) =>
      match skipWs rest with
      | ',' :: r =>
        match parseItems fuel r with
        | some (items, r') => some (v :: items, r')
        | none => none
      | ']' :: r => some ([v], r)
      | _ => none
    | none => none

/-- Parse one or more comma-separated `"key": value` fields followed by `}`. -/
def parseFields : Nat → List Char → Option (List (String × JValue) × List Char)
  | 0, _ => none
  | fuel + 1, cs =>
    match skipWs cs with
    | '"' :: rest =>
      match parseStringBody rest with
      | some (key, r1) =>
        match skipWs r1 with
        | ':' :: r2 =>
          match parseVal fuel r2 with
          | some (v, r3) =>
            match skipWs r3 with
            | ',' :: r4 =>
              match parseFields fuel r4 with
              | some (fields, r5) => some ((String.mk key, v) :: fields, r5)
              | none => none
            | '}' :: r4 => some ([(String.mk key, v)], r4)
            | _ => none
          | none => none
        | _ => none
      | none => none
    | _ => none

end

/-- Model of `JSON.parse`: `some v` on a well-formed JSON document (possibly
surrounded by whitespace), `none` where `JSON.parse` throws a `SyntaxError`. -/
def jsonParse (s : String) : Option JValue :=
  match parseVal (2 * s.data.length + 2) s.data with
  | some (v, rest) => if skipWs rest = [] then some v else none
  | none => none

/-! ## The `Number(...)` conversion with the `Number.isFinite` guard -/

/-- JavaScript `StrWhiteSpace` characters, trimmed by `Number(...)`: tab, line
feed, vertical tab, form feed, carriage return, space, NBSP, the Unicode
space separators, line/paragraph separators, narrow/medium math spaces,
ideographic space and the BOM. -/
def jsWsChar (c : Char) : Bool :=
  c.toNat = 9 || c.toNat = 10 || c.toNat = 11 || c.toNat = 12 || c.toNat = 13 ||
  c.toNat = 32 || c.toNat = 160 || c.toNat = 5760 ||
  (8192 ≤ c.toNat && c.toNat ≤ 8202) ||
  c.toNat = 8232 || c.toNat = 8233 || c.toNat = 8239 || c.toNat = 8287 ||
  c.toNat = 12288 || c.toNat = 65279

/-- Strip `StrWhiteSpace` from both ends, as `Number(...)` does. -/
def jsTrim (cs : List Char) : List Char :=
  ((cs.dropWhile jsWsChar).reverse.dropWhile jsWsChar).reverse

/-- The characters of the literal `Infinity`. -/
def infinityChars : List Char := ['I', 'n', 'f', 'i', 'n', 'i', 't', 'y']

/-- Parse a `StrUnsignedDecimalLiteral` other than `Infinity`, consuming the
whole input: `digits [. digits] [exp]`, `. digits [exp]`; leading zeros are
allowed (unlike JSON) and an exponent needs at least one digit.  Returns
`none` where JavaScript yields NaN. -/
def parseStrDecimal (cs : List Char) : Option ℚ :=
  let ip := cs.takeWhile isDig
  let r1 := cs.dropWhile isDig
  let (fp, r2) :=
    match r1 with
    | '.' :: rest => (rest.takeWhile isDig, rest.dropWhile isDig)
    | _ => (([] : List Char), r1)
  if ip = [] ∧ fp = [] then none
  else
    match r2 with
    | [] => some (decValue ip fp 0)
    | 'e' :: rest | 'E' :: rest =>
      let (sgn, rest2) : ℤ × List Char :=
        match rest with
        | '+' :: t => (1, t)
        | '-' :: t => (-1, t)
        | _ => (1, rest)
      let ed := rest2.takeWhile isDig
      if ed = [] ∨ rest2.dropWhile isDig ≠ [] then none
      else some (decValue ip fp (sgn * Int.ofNat (digitsToNat ed)))
    | _ => none

/-- Fold a run of digits in base `b` via `dv`, `none` on a bad digit. -/
def radixDigits (dv : Char → Option Nat) (b : Nat) : List Char → Option Nat
  | [] => some 0
  | c :: cs =>
    match dv c, radixDigits dv b cs with
    | some d, some acc => some (d * b ^ cs.length + acc)
    | _, _ => none

/-- Value of a binary digit. -/
def binVal (c : Char) : Option Nat :=
  if c = '0' then some 0 else if c = '1' then some 1 else none

/-- Value of an octal digit. -/
def octVal (c : Char) : Option Nat :=
  if 48 ≤ c.toNat ∧ c.toNat ≤ 55 then some (c.toNat - 48) else none

/-- A non-decimal integer literal `0x…`, `0o…` or `0b…` (no sign allowed). -/
def parseNonDecimal : List Char → Option ℚ
  | '0' :: x :: rest =>
    let digits : Option Nat :=
      if x = 'x' ∨ x = 'X' then if rest = [] then none else radixDigits hexVal 16 rest
      else if x = 'o' ∨ x = 'O' then if rest = [] then none else radixDigits octVal 8 rest
      else if x = 'b' ∨ x = 'B' then if rest = [] then none else radixDigits binVal 2 rest
      else none
    digits.map (fun n => mkRat (Int.ofNat n) 1)
  | _ => none

/-- Model of `Number(text)` followed by the `Number.isFinite` test used in
`saveEdit`: `some q` when the conversion yields a finite number `q`, `none`
when it yields NaN or ±Infinity.  The empty / whitespace-only string converts
to `0`; a leading sign is only allowed on decimal literals; `Infinity` is
non-finite, hence `none`.  Values are exact rationals. -/
def jsNumberFinite (s : String) : Option ℚ :=
  match jsTrim s.data with
  | [] => some 0
  | '+' :: rest => if rest = infinityChars then none else parseStrDecimal rest
  | '-' :: rest =>
    if rest = infinityChars then none else (parseStrDecimal rest).map (fun q => -q)
  | t =>
    if t = infinityChars then none
    else
      match parseNonDecimal t with
      | some q => some q
      | none =>
        match t with
        | '0' :: x :: _ =>
          if x = 'x' ∨ x = 'X' ∨ x = 'o' ∨ x = 'O' ∨ x = 'b' ∨ x = 'B' then none
          else parseStrDecimal t
        | _ => parseStrDecimal t

/-! ## `JSON.stringify(·, null, 2)` and template-literal stringification -/

/-- Lowercase hexadecimal digit. -/
def hexDigitChar (n : Nat) : Char :=
  if n < 10 then Char.ofNat (48 + n) else Char.ofNat (87 + n)

/-- Four-digit lowercase hexadecimal rendering, as in `\u0007` escapes. -/
def hex4 (n : Nat) : String :=
  String.mk [hexDigitChar (n / 4096 % 16), hexDigitChar (n / 256 % 16),
             hexDigitChar (n / 16 % 16), hexDigitChar (n % 16)]

/-- Escape one character the way `JSON.stringify` quotes strings. -/
def escChar (c : Char) : String :=
  if c = '"' then "\\\""
  else if c = '\\' then "\\\\"
  else if c = '\x08' then "\\b"
  else if c = '\x0c' then "\\f"
  else if c = '\n' then "\\n"
  else if c = '\r' then "\\r"
  else if c = '\t' then "\\t"
  else if c.toNat < 32 then "\\u" ++ hex4 c.toNat
  else String.singleton c

/-- A string in `JSON.stringify`'s quoted form. -/
def quoteStr (s : String) : String :=
  "\"" ++ String.join (s.data.map escChar) ++ "\""

/-- Decimal rendering of a rational: exact integers print as integers, and a
fraction whose denominator divides a power of ten prints as its terminating
decimal expansion (the only non-integers `JSON.parse` produces).  Other
denominators fall back to a fraction form; no claim verified here depends on
the digit string of such a value.  IEEE-754 shortest-roundtrip formatting is
abstracted away. -/
def ratToString (q : ℚ) : String :=
  if q.den = 1 then toString q.num
  else
    match (List.range 40).find? (fun k => (10 ^ k) % q.den = 0) with
    | some k =>
      let m := (q.num.natAbs * (10 ^ k / q.den)) % 10 ^ k
      let ipart := (q.num.natAbs * (10 ^ k / q.den)) / 10 ^ k
      let fs := toString m
      (if q.num < 0 then "-" else "") ++ toString ipart ++ "." ++
        String.mk (List.replicate (k - fs.length) '0') ++ fs
    | none => toString q.num ++ "/" ++ toString q.den

mutual

/-- Rendering of `JSON.stringify(v, null, 2)` at nesting prefix `indent`: scalars on one
line, non-empty arrays and objects opened across lines with two more spaces of
indentation per level. -/
def stringifyVal (indent : String) : JValue → String
  | .null => "null"
  | .bool b => if b then "true" else "false"
  | .num q => ratToString q
  | .str s => quoteStr s
  | .arr [] => "[]"
  | .arr (x :: xs) =>
    "[\n" ++ stringifyElems (indent ++ "  ") (x :: xs) ++ "\n" ++ indent ++ "]"
  | .obj [] => "{}"
  | .obj (f :: fs) =>
    "\x7b\n" ++ stringifyFields (indent ++ "  ") (f :: fs) ++ "\n" ++ indent ++ "\x7d"

/-- The comma-and-newline separated items of an array. -/
def stringifyElems (indent : String) : List JValue → String
  | [] => ""
  | x :: xs =>
    let head := indent ++ stringifyVal indent x
    match xs with
    | [] => head
    | _ => head ++ ",\n" ++ stringifyElems indent xs

/-- The comma-and-newline separated `"key": value` fields of an object. -/
def stringifyFields (indent : String) : List (String × JValue) → String
  | [] => ""
  | (k, v) :: fs =>
    let head := indent ++ quoteStr k ++ ": " ++ stringifyVal indent v
    match fs with
    | [] => head
    | _ => head ++ ",\n" ++ stringifyFields indent fs

end

/-- Top-level `JSON.stringify(v, null, 2)` as called by `normalizeNodeData`. -/
def stringify2 (v : JValue) : String := stringifyVal "" v

mutual

/-- Template-literal stringification of a value (`` `${value}` ``): strings
are taken verbatim, `null` prints `"null"`, arrays print as their
comma-joined elements and plain objects print `"[object Object]"`. -/
def jsDisplayString : JValue → String
  | .null => "null"
  | .bool b => if b then "true" else "false"
  | .num q => ratToString q
  | .str s => s
  | .arr xs => displayList xs
  | .obj _ => "[object Object]"

/-- Model of `Array.prototype.toString`: elements joined by `","`, with `null`
rendering as the empty string. -/
def displayList : List JValue → String
  | [] => ""
  | x :: xs =>
    let head :=
      match x with
      | .null => ""
      | y => jsDisplayString y
    match xs with
    | [] => head
    | _ => head ++ "," ++ displayList xs

end

/-! ## The node data model of `NodeModal` -/

/-- One field row of a selected node (`NodeData["text"]` element): an optional
key, a value and the declared JSON type of the value.  The declared type is
kept as a string exactly as the source compares it. -/
structure NodeRow where
  key : Option String
  value : JValue
  type : String

/-- One segment of a node's path: an object key or an array index. -/
inductive PathSeg where
  | key (s : String)
  | idx (n : ℤ)

/-- The selected node as supplied by the graph store (`NodeData`): an
identifier, the row representation, and an optional path (absent when the
node has no resolvable location). -/
structure NodeData where
  id : String
  text : List NodeRow
  path : Option (List PathSeg)

/-- JavaScript truthiness of `row.key`: false for an absent key and for the
empty string. -/
def rowKeyTruthy (r : NodeRow) : Bool :=
  match r.key with
  | none => false
  | some s => s ≠ ""

/-- Assignment `obj[key] = value` on a JavaScript object kept as an insertion-ordered
association list: an existing key keeps its position and takes the new value,
a new key is appended. -/
def jsObjInsert (fields : List (String × JValue)) (k : String) (v : JValue) :
    List (String × JValue) :=
  match fields with
  | [] => [(k, v)]
  | (k', v') :: rest =>
    if k' = k then (k, v) :: rest else (k', v') :: jsObjInsert rest k v

/-- The object built by `normalizeNodeData`'s `forEach` loop: every row whose
type is neither `"array"` nor `"object"` and whose key is truthy is written
into the object in order. -/
def buildObj (rows : List NodeRow) : List (String × JValue) :=
  rows.foldl
    (fun acc row =>
      if row.type ≠ "array" ∧ row.type ≠ "object" then
        if rowKeyTruthy row then
          match row.key with
          | some k => jsObjInsert acc k row.value
          | none => acc
        else acc
      else acc)
    []

/-- Embedding of `normalizeNodeData` (source lines 13–24): `"{}"` for no rows, the bare
template-literal rendering for a single keyless row, and otherwise the
2-space-indented `JSON.stringify` of the object collecting the non-container
keyed rows. -/
def normalizeNodeData (nodeRows : List NodeRow) : String :=
  match nodeRows with
  | [] => "{}"
  | [r] =>
    if rowKeyTruthy r then stringify2 (.obj (buildObj [r]))
    else jsDisplayString r.value
  | rows => stringify2 (.obj (buildObj rows))

/-- The display form of one path segment as mapped in `jsonPathToString`:
numbers bare, strings wrapped in double quotes. -/
def segToString : PathSeg → String
  | .idx n => toString n
  | .key s => "\"" ++ s ++ "\""

/-- Model of `Array.prototype.join(sep)`: the elements separated by `sep`. -/
def joinSep (sep : String) : List String → String
  | [] => ""
  | [x] => x
  | x :: xs => x ++ sep ++ joinSep sep xs

/-- Embedding of `jsonPathToString` (source lines 27–31): `"$"` for an absent or empty
path, otherwise `$[` ++ the segments joined by `][` ++ `]`. -/
def jsonPathToString (path : Option (List PathSeg)) : String :=
  match path with
  | none => "$"
  | some [] => "$"
  | some segs => "$[" ++ joinSep "][" (segs.map segToString) ++ "]"

/-! ## `parseEdit`: the value produced from the edited text -/

/-- The value `saveEdit` assigns to `newValue` (source lines 66–88): strict
`JSON.parse` first; on parse failure, type-directed coercion from the declared
type of the node's first row — verbatim text for `"string"`, finite numeric
conversion (else verbatim text) for `"number"`, equality with the literal
`"true"` for `"boolean"`, `null` for `"null"`, and verbatim text for any other
type or when the node has no rows. -/
def parseEdit (editedValue : String) (rows : List NodeRow) : JValue :=
  match jsonParse editedValue with
  | some v => v
  | none =>
    match rows with
    | firstRow :: _ =>
      if firstRow.type = "string" then .str editedValue
      else if firstRow.type = "number" then
        match jsNumberFinite editedValue with
        | some n => .num n
        | none => .str editedValue
      else if firstRow.type = "boolean" then .bool (editedValue == "true")
      else if firstRow.type = "null" then .null
      else .str editedValue
    | [] => .str editedValue

/-! ## `saveEdit`: the save orchestration as an effect trace

`saveEdit` is embedded as a function from its inputs to the ordered list of
calls it makes on its collaborators.  Throwing JavaScript operations appear as
`Except` values: the jsonc-parser patch (`modify` + `applyEdits`, an external
library) is a parameter that either returns the new document text or throws,
and the mirrored-editor update (`setContents`) may throw, modelled by a
boolean.  The result is `Except String (List Effect)`: an `Except.error`
would be an exception escaping `saveEdit` uncaught. -/

/-- One observable call made by `saveEdit` or the edit-state handlers. -/
inductive Effect where
  | getJson : Effect
  | setContents (contents : String) (hasChanges skipUpdate : Bool) : Effect
  | setJson (contents : String) : Effect
  | consoleError (msg : String) : Effect
  | setEditing (b : Bool) : Effect
  | setEditedValue (s : String) : Effect
  | onClose : Effect

/-- The calls `cancelEdit` makes (source lines 51–54). -/
def cancelEditTrace : List Effect :=
  [.setEditedValue "", .setEditing false]

/-- The inner catch around the mirrored-editor update: a throwing call
contributes nothing and the exception is swallowed. -/
def tryIgnore (x : Except String (List Effect)) : List Effect :=
  match x with
  | .ok t => t
  | .error _ => []

/-- Embedding of `saveEdit` (source lines 56–115).  `patch` models
`applyEdits(original, modify(original, path, newValue, …))` from the
jsonc-parser library: `.ok` is the patched document text, `.error` a thrown
failure.  `setContentsThrows` models the mirrored-editor update throwing.
The trace lists the collaborator calls in the order the source makes them. -/
def saveEdit (patch : String → List PathSeg → JValue → Except String String)
    (setContentsThrows : Bool) (nodeData : Option NodeData)
    (editedValue : String) (currentJson : String) :
    Except String (List Effect) :=
  match nodeData with
  | none => .ok cancelEditTrace
  | some nd =>
    match nd.path with
    | none => .ok cancelEditTrace
    | some path =>
      -- const original = getJson();
      let newValue := parseEdit editedValue nd.text
      -- try { modify; applyEdits; try {setContents} catch {}; setJson }
      -- catch (err) { console.error(...) }
      let handled : List Effect :=
        match patch currentJson path newValue with
        | .ok newJson =>
          tryIgnore
            (if setContentsThrows then .error "setContents failed"
             else .ok [.setContents newJson true true]) ++ [.setJson newJson]
        | .error e => [.consoleError ("Failed to apply node edit: " ++ e)]
      .ok ([Effect.getJson] ++ handled ++ [.setEditing false, .onClose])

/-- The document store's text after running a trace against `original`:
the last `setJson` wins. -/
def docAfter (original : String) : List Effect → String
  | [] => original
  | .setJson s :: es => docAfter s es
  | _ :: es => docAfter original es

/-- Whether a trace writes the canonical document store at all. -/
def writesDoc : List Effect → Bool
  | [] => false
  | .setJson _ :: _ => true
  | _ :: es => writesDoc es

/-- Whether a trace reads the canonical document store. -/
def readsDoc : List Effect → Bool
  | [] => false
  | .getJson :: _ => true
  | _ :: es => readsDoc es

/-- Whether a trace reports an error to the console diagnostic channel. -/
def reportsError : List Effect → Bool
  | [] => false
  | .consoleError _ :: _ => true
  | _ :: es => reportsError es

/-- Whether a trace sets `editing` to `false`. -/
def closesEditing : List Effect → Bool
  | [] => false
  | .setEditing false :: _ => true
  | _ :: es => closesEditing es

/-- Whether a trace invokes the modal's `onClose` callback. -/
def invokesOnClose : List Effect → Bool
  | [] => false
  | .onClose :: _ => true
  | _ :: es => invokesOnClose es

/-- Whether a trace updates the mirrored text editor, and with what. -/
def mirrorUpdate : List Effect → Option (String × Bool × Bool)
  | [] => none
  | .setContents s h k :: _ => some (s, h, k)
  | _ :: es => mirrorUpdate es

/-! ## The edit-session state machine of the modal

The component state is `editing` and `editedValue` plus the two inputs the
reset effect watches: the `opened` prop and the selected node's identity.
The `useEffect` on `[nodeData?.id, opened]` (source lines 119–122) runs after
any event that changed either dependency and resets both fields. -/

/-- The modal's state as seen by the edit session. -/
structure UIState where
  editing : Bool
  editedValue : String
  opened : Bool
  nodeId : Option String

/-- The discrete user/parent events the modal reacts to. -/
inductive UIEvent where
  | selectNode (id : Option String) : UIEvent
  | setOpened (b : Bool) : UIEvent
  | startEdit (initialContent : String) : UIEvent
  | keystroke (s : String) : UIEvent
  | cancelClick : UIEvent
  | saveClick (hasPath : Bool) : UIEvent

/-- The event handlers of the component, before the reset effect runs.
Modelled from the spec: the parent wires the modal's `onClose` to close the
edit surface, so a save on a node with a resolvable path ends with `opened`
becoming false (the parent component is not part of the analysed source; the
spec's state machine says the surface closes on save regardless of patch
success or failure). -/
def handleEvent (s : UIState) (e : UIEvent) : UIState :=
  match e with
  | .selectNode id => { s with nodeId := id }
  | .setOpened b => { s with opened := b }
  | .startEdit c => { s with editing := true, editedValue := c }
  | .keystroke t => { s with editedValue := t }
  | .cancelClick => { s with editing := false, editedValue := "" }
  | .saveClick hasPath =>
    if hasPath then { s with editing := false, opened := false }
    else { s with editing := false, editedValue := "" }

/-- One step of the modal: the handler runs, then the `useEffect` on
`[nodeData?.id, opened]` resets the session if either dependency changed. -/
def stepUI (s : UIState) (e : UIEvent) : UIState :=
  let s' := handleEvent s e
  if s'.nodeId ≠ s.nodeId ∨ s'.opened ≠ s.opened then
    { s' with editing := false, editedValue := "" }
  else s'

/-- Whether a trace clears the draft text (sets the edited value to `""`). -/
def clearsDraft : List Effect → Bool
  | [] => false
  | .setEditedValue "" :: _ => true
  | _ :: es => clearsDraft es

/-! ## Spec-side definitions

Each is written from the specification's words, to be compared with the
definition embedded from the source. -/

/-- Spec-side rendering of one path segment: string segments double-quoted,
integer segments bare. -/
def specSegString : PathSeg → String
  | .key s => "\"" ++ s ++ "\""
  | .idx n => toString n

/-- Spec-side path formatter body: each segment in order wrapped in square
brackets, with no other separators. -/
def wrapSegsSpec : List PathSeg → String
  | [] => ""
  | s :: rest => "[" ++ specSegString s ++ "]" ++ wrapSegsSpec rest

/-- Spec-side path formatter: `"$"` when the path is empty or absent,
otherwise `"$"` followed by the bracketed segments. -/
def formatPathSpec : Option (List PathSeg) → String
  | none => "$"
  | some segs => "$" ++ wrapSegsSpec segs

/-- Spec-side coercion fallback, keyed on the declared type of the node's
first row: `"string"` → the text verbatim; `"number"` → the finite numeric
conversion, else the text verbatim; `"boolean"` → true iff the text equals
`"true"` exactly; `"null"` → null regardless of the text; any other type, or
no type available → the text verbatim. -/
def coerceSpec (text : String) (declaredType : Option String) : JValue :=
  match declaredType with
  | none => .str text
  | some t =>
    if t = "string" then .str text
    else if t = "number" then
      match jsNumberFinite text with
      | some n => .num n
      | none => .str text
    else if t = "boolean" then .bool (text == "true")
    else if t = "null" then .null
    else .str text

/-- Spec-side row filter: the row has a key and its type is neither
`"array"` nor `"object"`. -/
def keepRowSpec (r : NodeRow) : Bool :=
  rowKeyTruthy r && r.type != "array" && r.type != "object"

/-- Spec-side mapping from key to value over exactly the kept rows, built as
a JavaScript object (insertion-ordered, a repeated key keeps its first
position and takes its last value). -/
def specMapping (rows : List NodeRow) : List (String × JValue) :=
  (rows.filter keepRowSpec).foldl
    (fun acc r =>
      match r.key with
      | some k => jsObjInsert acc k r.value
      | none => acc)
    []

/-- Spec-side normalizer: `"{}"` for the empty sequence; the native
stringification of the single row's value for exactly one keyless row;
otherwise the 2-space pretty-printed serialization of the mapping over the
kept rows. -/
def normalizeSpec (rows : List NodeRow) : String :=
  match rows with
  | [] => "{}"
  | [r] =>
    if rowKeyTruthy r then stringify2 (.obj (specMapping [r]))
    else jsDisplayString r.value
  | rs => stringify2 (.obj (specMapping rs))

/-! ## Concrete evaluations of the embedded definitions

Smoke checks that the models of `JSON.parse`, `Number(...)`,
`JSON.stringify`, the path formatter and `parseEdit` compute the
values the corresponding JavaScript expressions produce. -/

example : jsonParse "true" = some (.bool true) := by rfl
example : jsonParse "  null " = some .null := by rfl
example : jsonParse "42" = some (.num 42) := by rfl
example : jsonParse "-1.5e1" = some (.num (-15)) := by rfl
example : jsonParse "abc" = none := by rfl
example : jsonParse "" = none := by rfl
example : jsonParse " " = none := by rfl
example : jsonParse "0123" = none := by rfl
example : jsonParse "\x7b\"x\":1\x7d" = some (.obj [("x", .num 1)]) := by rfl
example : jsonParse "[1, [true]]" = some (.arr [.num 1, .arr [.bool true]]) := by rfl
example : jsonParse "\"a\\nb\"" = some (.str "a\nb") := by rfl
example : jsonParse "\x7b\"x\":1" = none := by rfl
example : jsNumberFinite "" = some 0 := by rfl
example : jsNumberFinite "  " = some 0 := by rfl
example : jsNumberFinite "\t\n" = some 0 := by rfl
example : jsNumberFinite "42" = some 42 := by rfl
example : jsNumberFinite " -1.5 " = some (mkRat (-3) 2) := by rfl
example : jsNumberFinite "0123" = some 123 := by rfl
example : jsNumberFinite ".5" = some (mkRat 1 2) := by rfl
example : jsNumberFinite "0x10" = some 16 := by rfl
example : jsNumberFinite "-0x10" = none := by rfl
example : jsNumberFinite "abc" = none := by rfl
example : jsNumberFinite "Infinity" = none := by rfl
example : jsNumberFinite "-Infinity" = none := by rfl
example : jsNumberFinite "1e2" = some 100 := by rfl
example : jsNumberFinite "1 2" = none := by rfl
example : jsNumberFinite "." = none := by rfl
example : stringify2 (.obj []) = "{}" := by rfl
example : stringify2 (.obj [("a", .num 1), ("b", .str "x")]) =
    "\x7b\n  \"a\": 1,\n  \"b\": \"x\"\n\x7d" := by rfl
example : stringify2 (.obj [("a", .arr [.bool true])]) =
    "\x7b\n  \"a\": [\n    true\n  ]\n\x7d" := by rfl
example : jsDisplayString (.str "hi") = "hi" := by rfl
example : jsDisplayString (.num 42) = "42" := by rfl
example : jsDisplayString (.num (mkRat 3 2)) = "1.5" := by rfl
example : jsDisplayString (.num (mkRat (-3) 2)) = "-1.5" := by rfl
example : jsDisplayString (.arr [.num 1, .null, .str "a"]) = "1,,a" := by rfl
example : jsonPathToString none = "$" := by rfl
example : jsonPathToString (some []) = "$" := by rfl
example : jsonPathToString (some [.key "a", .idx 2, .key "b"]) =
    "$[\"a\"][2][\"b\"]" := by rfl
example : parseEdit "true" [⟨none, .bool false, "boolean"⟩] = .bool true := by rfl
example : parseEdit "yes" [⟨none, .bool false, "boolean"⟩] = .bool false := by rfl
example : parseEdit "abc" [⟨none, .num 1, "number"⟩] = .str "abc" := by rfl
example : parseEdit "" [⟨none, .num 1, "number"⟩] = .num 0 := by rfl
example : parseEdit "anything" [⟨none, .null, "null"⟩] = .null := by rfl
example : parseEdit "\x7b\"x\":1\x7d" [⟨none, .null, "null"⟩] =
    .obj [("x", .num 1)] := by rfl

/-! # Theorems -/

/-- C3: for every edited text that is valid JSON, `parseEdit` returns exactly
the strictly parsed JSON value, regardless of the node's declared type; the
coercion fallback is never consulted when strict parsing succeeds. -/
theorem parseEdit_strict_wins (text : String) (rows : List NodeRow) (v : JValue)
    (h : jsonParse text = some v) : parseEdit text rows = v := by
  unfold parseEdit
  rw [h]

/-- Witness for C3: `parseEdit "true"` on a boolean-typed node returns the
boolean `true` through the strict path. -/
theorem parseEdit_strict_wins_witness :
    parseEdit "true" [⟨none, .bool false, "boolean"⟩] = .bool true :=
  parseEdit_strict_wins "true" [⟨none, .bool false, "boolean"⟩] (.bool true) rfl

/-- C2: for every edited text that fails strict JSON parsing, `parseEdit`
returns the value of the type-directed coercion determined by the declared
type of the node's first row: verbatim text for `"string"`; the finite
numeric conversion (else verbatim text) for `"number"`; equality with the
literal `"true"` for `"boolean"`; `null` for `"null"`; verbatim text for any
other type or when the node has no rows. -/
theorem parseEdit_coercion (text : String) (rows : List NodeRow)
    (h : jsonParse text = none) :
    parseEdit text rows = coerceSpec text (rows.head?.map NodeRow.type) := by
  unfold parseEdit
  rw [h]
  cases rows with
  | nil => rfl
  | cons r rest => rfl

/-- Witness for C2: `"abc"` is not JSON and does not convert to a finite
number, so a number-typed node falls back to the verbatim text. -/
theorem parseEdit_coercion_witness :
    jsonParse "abc" = none ∧
      parseEdit "abc" [⟨none, .num 1, "number"⟩] =
        coerceSpec "abc" (some "number") :=
  ⟨rfl, parseEdit_coercion "abc" [⟨none, .num 1, "number"⟩] rfl⟩

/-- C4: the save operation is total — for every edited text, selected node,
document text, patch outcome and mirrored-editor behaviour, `saveEdit`
returns a trace and never lets an exception escape (`Except.ok` always). -/
theorem saveEdit_never_throws
    (patch : String → List PathSeg → JValue → Except String String)
    (setContentsThrows : Bool) (nodeData : Option NodeData)
    (editedValue currentJson : String) :
    ∃ t, saveEdit patch setContentsThrows nodeData editedValue currentJson =
      .ok t := by
  unfold saveEdit
  cases nodeData with
  | none => exact ⟨_, rfl⟩
  | some nd =>
    obtain ⟨id, text, path⟩ := nd
    cases path with
    | none => exact ⟨_, rfl⟩
    | some p => exact ⟨_, rfl⟩

/-- C5: a save attempted with no selected node, or with a selected node whose
path is unresolved, is an implicit cancel: the returned trace is exactly
`cancelEdit`'s — the document store is neither read nor written, no patch
effect appears, and the edit state is cleared (editing false, draft text
empty). -/
theorem saveEdit_no_selection
    (patch : String → List PathSeg → JValue → Except String String)
    (setContentsThrows : Bool) (nodeData : Option NodeData)
    (editedValue currentJson : String)
    (h : nodeData = none ∨ ∃ nd, nodeData = some nd ∧ nd.path = none) :
    saveEdit patch setContentsThrows nodeData editedValue currentJson =
        .ok cancelEditTrace ∧
      readsDoc cancelEditTrace = false ∧ writesDoc cancelEditTrace = false ∧
      docAfter currentJson cancelEditTrace = currentJson ∧
      clearsDraft cancelEditTrace = true ∧
      closesEditing cancelEditTrace = true := by
  rcases h with h | ⟨nd, h, hp⟩
  · subst h
    exact ⟨rfl, rfl, rfl, rfl, rfl, rfl⟩
  · subst h
    obtain ⟨id, text, path⟩ := nd
    simp only at hp
    subst hp
    exact ⟨rfl, rfl, rfl, rfl, rfl, rfl⟩

/-- Witness for C5: saving with no selected node yields the cancel trace. -/
theorem saveEdit_no_selection_witness :
    saveEdit (fun _ _ _ => .ok "") false none "x" "{}" = .ok cancelEditTrace ∧
      readsDoc cancelEditTrace = false ∧ writesDoc cancelEditTrace = false ∧
      docAfter "{}" cancelEditTrace = "{}" ∧
      clearsDraft cancelEditTrace = true ∧
      closesEditing cancelEditTrace = true :=
  saveEdit_no_selection (fun _ _ _ => .ok "") false none "x" "{}" (Or.inl rfl)

/-- Evaluation of `saveEdit` for a selected node with a resolved path: the
trace is `getJson`, then the patch-dependent effects, then the closing
effects. -/
theorem saveEdit_some_path
    (patch : String → List PathSeg → JValue → Except String String)
    (setContentsThrows : Bool) (id : String) (text : List NodeRow)
    (p : List PathSeg) (editedValue currentJson : String) :
    saveEdit patch setContentsThrows (some ⟨id, text, some p⟩) editedValue
        currentJson =
      .ok ([Effect.getJson] ++
        (match patch currentJson p (parseEdit editedValue text) with
         | .ok newJson =>
           tryIgnore
             (if setContentsThrows then .error "setContents failed"
              else .ok [.setContents newJson true true]) ++ [.setJson newJson]
         | .error e => [.consoleError ("Failed to apply node edit: " ++ e)]) ++
        [.setEditing false, .onClose]) := rfl

/-- C1: whenever computing or applying the patch fails, `saveEdit` leaves
the canonical document unchanged (no `setJson` in the trace, so the document
text is byte-for-byte what it was), reports the error to the console
diagnostic channel, and still closes the edit surface (`setEditing false` and
the modal's `onClose` both occur). -/
theorem saveEdit_patch_failure
    (patch : String → List PathSeg → JValue → Except String String)
    (setContentsThrows : Bool) (id : String) (text : List NodeRow)
    (p : List PathSeg) (editedValue currentJson e : String)
    (hfail : patch currentJson p (parseEdit editedValue text) = .error e) :
    ∃ t, saveEdit patch setContentsThrows (some ⟨id, text, some p⟩)
          editedValue currentJson = .ok t ∧
      writesDoc t = false ∧ docAfter currentJson t = currentJson ∧
      reportsError t = true ∧ closesEditing t = true ∧
      invokesOnClose t = true := by
  refine ⟨[Effect.getJson,
           .consoleError ("Failed to apply node edit: " ++ e),
           .setEditing false, .onClose], ?_, rfl, rfl, rfl, rfl, rfl⟩
  rw [saveEdit_some_path, hfail]
  rfl

/-- Witness for C1: a patch that throws (for example because the path does
not exist in the current document) leaves the document untouched while the
surface still closes. -/
theorem saveEdit_patch_failure_witness :
    ∃ t, saveEdit (fun _ _ _ => .error "path not found") false
          (some ⟨"n1", [], some [.key "missing"]⟩) "1" "\x7b\"a\":1\x7d" = .ok t ∧
      writesDoc t = false ∧ docAfter "\x7b\"a\":1\x7d" t = "\x7b\"a\":1\x7d" ∧
      reportsError t = true ∧ closesEditing t = true ∧
      invokesOnClose t = true :=
  saveEdit_patch_failure (fun _ _ _ => .error "path not found") false
    "n1" [] [.key "missing"] "1" "\x7b\"a\":1\x7d" "path not found" rfl

/-- C9: on every successful patch, the mirrored text editor is updated with
the new document text with `hasChanges` and `skipUpdate` both true, and the
canonical store receives the same text; when the mirrored update throws, the
failure is swallowed and the canonical store is still updated. -/
theorem saveEdit_success
    (patch : String → List PathSeg → JValue → Except String String)
    (id : String) (text : List NodeRow) (p : List PathSeg)
    (editedValue currentJson newJson : String)
    (hok : patch currentJson p (parseEdit editedValue text) = .ok newJson) :
    saveEdit patch false (some ⟨id, text, some p⟩) editedValue currentJson =
        .ok [Effect.getJson, .setContents newJson true true,
             .setJson newJson, .setEditing false, .onClose] ∧
      saveEdit patch true (some ⟨id, text, some p⟩) editedValue currentJson =
        .ok [Effect.getJson, .setJson newJson, .setEditing false, .onClose] ∧
      mirrorUpdate [Effect.getJson, .setContents newJson true true,
                    .setJson newJson, .setEditing false, .onClose] =
        some (newJson, true, true) ∧
      docAfter currentJson
          [Effect.getJson, .setContents newJson true true, .setJson newJson,
           .setEditing false, .onClose] = newJson ∧
      docAfter currentJson
          [Effect.getJson, .setJson newJson, .setEditing false, .onClose] =
        newJson := by
  refine ⟨?_, ?_, rfl, rfl, rfl⟩
  · rw [saveEdit_some_path, hok]
    rfl
  · rw [saveEdit_some_path, hok]
    rfl

/-- Witness for C9: a successful patch updates both surfaces with the patched
text, and still updates the canonical store when the mirror update throws. -/
theorem saveEdit_success_witness :
    saveEdit (fun _ _ _ => .ok "\x7b\"a\":2\x7d") false
        (some ⟨"n1", [], some [.key "a"]⟩) "2" "\x7b\"a\":1\x7d" =
      .ok [Effect.getJson, .setContents "\x7b\"a\":2\x7d" true true,
           .setJson "\x7b\"a\":2\x7d", .setEditing false, .onClose] ∧
    saveEdit (fun _ _ _ => .ok "\x7b\"a\":2\x7d") true
        (some ⟨"n1", [], some [.key "a"]⟩) "2" "\x7b\"a\":1\x7d" =
      .ok [Effect.getJson, .setJson "\x7b\"a\":2\x7d", .setEditing false,
           .onClose] ∧
    mirrorUpdate [Effect.getJson, .setContents "\x7b\"a\":2\x7d" true true,
                  .setJson "\x7b\"a\":2\x7d", .setEditing false, .onClose] =
      some ("\x7b\"a\":2\x7d", true, true) ∧
    docAfter "\x7b\"a\":1\x7d"
        [Effect.getJson, .setContents "\x7b\"a\":2\x7d" true true,
         .setJson "\x7b\"a\":2\x7d", .setEditing false, .onClose] = "\x7b\"a\":2\x7d" ∧
    docAfter "\x7b\"a\":1\x7d"
        [Effect.getJson, .setJson "\x7b\"a\":2\x7d", .setEditing false, .onClose] =
      "\x7b\"a\":2\x7d" :=
  saveEdit_success (fun _ _ _ => .ok "\x7b\"a\":2\x7d") "n1" [] [.key "a"] "2"
    "\x7b\"a\":1\x7d" "\x7b\"a\":2\x7d" rfl

/-- The source's segment rendering agrees with the spec's description. -/
theorem segToString_eq_spec (s : PathSeg) : segToString s = specSegString s := by
  cases s <;> rfl

/-- Joining bracketed segments with `][` between `[` and `]` is the same as
wrapping each segment in brackets. -/
theorem bracket_join (s : PathSeg) (l : List PathSeg) :
    "[" ++ joinSep "][" ((s :: l).map segToString) ++ "]" =
      "[" ++ specSegString s ++ "]" ++ wrapSegsSpec l := by
  induction l generalizing s with
  | nil =>
    simp [joinSep, wrapSegsSpec, segToString_eq_spec, String.append_empty,
      String.append_assoc]
  | cons t ts ih =>
    have ih' := ih t
    simp only [List.map, joinSep, wrapSegsSpec, String.append_assoc] at ih' ⊢
    rw [show ("][" : String) = "]" ++ "[" from rfl] at ih' ⊢
    simp only [String.append_assoc] at ih' ⊢
    rw [ih']
    simp [segToString_eq_spec]

/-- C7: `jsonPathToString` returns `"$"` for an absent or empty path and
otherwise `"$"` followed by each segment in order wrapped in square brackets
(string segments double-quoted, integer segments bare), with no other
separators; in particular the path `["a", 2, "b"]` formats as
`$["a"][2]["b"]`. -/
theorem jsonPathToString_spec :
    (∀ path, jsonPathToString path = formatPathSpec path) ∧
      jsonPathToString (some [.key "a", .idx 2, .key "b"]) =
        "$[\"a\"][2][\"b\"]" := by
  refine ⟨?_, rfl⟩
  intro path
  match path with
  | none => rfl
  | some [] => rfl
  | some (s :: rest) =>
    show "$[" ++ joinSep "][" ((s :: rest).map segToString) ++ "]" =
      "$" ++ wrapSegsSpec (s :: rest)
    have h := bracket_join s rest
    simp only [String.append_assoc] at h
    rw [show ("$[" : String) = "$" ++ "[" from rfl]
    simp only [String.append_assoc]
    rw [h]
    simp [wrapSegsSpec, String.append_assoc]

/-- The guarded fold of `normalizeNodeData`'s `forEach` loop equals the
unguarded fold over the rows kept by the spec's filter, from any starting
object. -/
theorem buildObj_go_eq (rows : List NodeRow) (acc : List (String × JValue)) :
    rows.foldl
      (fun acc row =>
        if row.type ≠ "array" ∧ row.type ≠ "object" then
          if rowKeyTruthy row then
            match row.key with
            | some k => jsObjInsert acc k row.value
            | none => acc
          else acc
        else acc)
      acc =
    (rows.filter keepRowSpec).foldl
      (fun acc r =>
        match r.key with
        | some k => jsObjInsert acc k r.value
        | none => acc)
      acc := by
  induction rows generalizing acc with
  | nil => rfl
  | cons r rs ih =>
    by_cases hk : keepRowSpec r = true
    · have hcond : r.type ≠ "array" ∧ r.type ≠ "object" := by
        simp only [keepRowSpec, Bool.and_eq_true, bne_iff_ne] at hk
        exact ⟨hk.1.2, hk.2⟩
      have htruthy : rowKeyTruthy r = true := by
        simp only [keepRowSpec, Bool.and_eq_true] at hk
        exact hk.1.1
      rw [List.foldl_cons, List.filter_cons_of_pos hk, List.foldl_cons,
        if_pos hcond, if_pos htruthy]
      exact ih _
    · have hdrop :
          (if r.type ≠ "array" ∧ r.type ≠ "object" then
            if rowKeyTruthy r then
              match r.key with
              | some k => jsObjInsert acc k r.value
              | none => acc
            else acc
          else acc) = acc := by
        by_cases hcond : r.type ≠ "array" ∧ r.type ≠ "object"
        · have htruthy : rowKeyTruthy r = false := by
            cases ht : rowKeyTruthy r
            · rfl
            · exfalso
              apply hk
              simp only [keepRowSpec, Bool.and_eq_true, bne_iff_ne]
              exact ⟨⟨ht, hcond.1⟩, hcond.2⟩
          rw [if_pos hcond, htruthy]
          rfl
        · rw [if_neg hcond]
      rw [List.foldl_cons, hdrop,
        List.filter_cons_of_neg (by simpa using hk)]
      exact ih acc

/-- The object `normalizeNodeData` builds is the spec's mapping over exactly
the kept rows. -/
theorem buildObj_eq_specMapping (rows : List NodeRow) :
    buildObj rows = specMapping rows :=
  buildObj_go_eq rows []

/-- C6: `normalizeNodeData` agrees with the spec's description on every row
sequence — `"{}"` for the empty sequence, the native stringification of the
value for a single keyless row, and otherwise the 2-space pretty-printed
serialization of the mapping over exactly the keyed non-container rows
(container-typed and keyless rows are absent, as `normalizeSpec` filters them
out). -/
theorem normalizeNodeData_spec (rows : List NodeRow) :
    normalizeNodeData rows = normalizeSpec rows := by
  match rows with
  | [] => rfl
  | [r] =>
    show (if rowKeyTruthy r then stringify2 (.obj (buildObj [r]))
          else jsDisplayString r.value) =
      (if rowKeyTruthy r then stringify2 (.obj (specMapping [r]))
       else jsDisplayString r.value)
    rw [buildObj_eq_specMapping]
  | r :: r' :: rest =>
    show stringify2 (.obj (buildObj (r :: r' :: rest))) =
      stringify2 (.obj (specMapping (r :: r' :: rest)))
    rw [buildObj_eq_specMapping]

/-- Members of `skipWs`'s output come from the input. -/
theorem skipWs_mem {cs : List Char} {c : Char} (h : c ∈ skipWs cs) :
    c ∈ cs := by
  induction cs with
  | nil => simp [skipWs] at h
  | cons a as ih =>
    by_cases hw : jsonWs a = true
    · rw [show skipWs (a :: as) = skipWs as by simp [skipWs, hw]] at h
      exact List.mem_cons_of_mem a (ih h)
    · rw [show skipWs (a :: as) = a :: as by simp [skipWs, hw]] at h
      exact h

/-- A whitespace-only input has no JSON value at its head: no starter
character of the JSON grammar is a JavaScript whitespace character. -/
theorem jsWsChar_not_starter {c : Char} (h : jsWsChar c = true) :
    c ≠ 'n' ∧ c ≠ 't' ∧ c ≠ 'f' ∧ c ≠ '"' ∧ c ≠ '[' ∧ c ≠ '{' ∧ c ≠ '-' ∧
      isDig c = false := by
  refine ⟨?_, ?_, ?_, ?_, ?_, ?_, ?_, ?_⟩
  · intro hc; subst hc; exact absurd h (by decide)
  · intro hc; subst hc; exact absurd h (by decide)
  · intro hc; subst hc; exact absurd h (by decide)
  · intro hc; subst hc; exact absurd h (by decide)
  · intro hc; subst hc; exact absurd h (by decide)
  · intro hc; subst hc; exact absurd h (by decide)
  · intro hc; subst hc; exact absurd h (by decide)
  · cases hd : isDig c
    · rfl
    · exfalso
      simp only [isDig, Bool.and_eq_true, decide_eq_true_eq] at hd
      simp only [jsWsChar, Bool.or_eq_true, Bool.and_eq_true,
        decide_eq_true_eq] at h
      omega

/-- The JSON parser rejects any whitespace-only input, at every fuel. -/
theorem parseVal_ws (fuel : Nat) (cs : List Char)
    (h : ∀ c ∈ cs, jsWsChar c = true) : parseVal fuel cs = none := by
  cases fuel with
  | zero => rfl
  | succ n =>
    unfold parseVal
    split
    · rfl
    next c rest heq =>
      have hc : jsWsChar c = true :=
        h c (skipWs_mem (heq ▸ List.mem_cons_self c rest))
      obtain ⟨h1, h2, h3, h4, h5, h6, h7, h8⟩ := jsWsChar_not_starter hc
      rw [if_neg h1, if_neg h2, if_neg h3, if_neg h4, if_neg h5,
        if_neg h6, if_neg h7]
      simp [h8]

/-- C10 support: `JSON.parse` throws on the empty string and on every
whitespace-only string. -/
theorem jsonParse_ws (s : String) (h : ∀ c ∈ s.data, jsWsChar c = true) :
    jsonParse s = none := by
  unfold jsonParse
  rw [parseVal_ws _ _ h]

/-- Trimming a whitespace-only character list leaves nothing. -/
theorem jsTrim_nil (cs : List Char) (h : ∀ c ∈ cs, jsWsChar c = true) :
    jsTrim cs = [] := by
  unfold jsTrim
  have h1 : cs.dropWhile jsWsChar = [] := by
    rw [List.dropWhile_eq_nil_iff]
    exact fun c hc => h c hc
  rw [h1]
  rfl

/-- C10 support: `Number(...)` converts the empty and every whitespace-only
string to the finite value `0`. -/
theorem jsNumberFinite_ws (s : String) (h : ∀ c ∈ s.data, jsWsChar c = true) :
    jsNumberFinite s = some 0 := by
  unfold jsNumberFinite
  rw [jsTrim_nil s.data h]

/-- C10: the empty string and every whitespace-only string fail strict JSON
parsing, and on a node whose first row is declared `"number"` the coercion
converts them to the number `0` (not the text verbatim), because
`Number(...)` yields the finite value `0` on such text. -/
theorem parseEdit_ws_number_zero (s : String) (rows : List NodeRow)
    (firstRow : NodeRow) (hws : ∀ c ∈ s.data, jsWsChar c = true)
    (hhead : rows.head? = some firstRow) (hty : firstRow.type = "number") :
    jsonParse s = none ∧ parseEdit s rows = .num 0 := by
  have hp := jsonParse_ws s hws
  refine ⟨hp, ?_⟩
  unfold parseEdit
  rw [hp]
  cases rows with
  | nil => simp at hhead
  | cons r rest =>
    obtain rfl : r = firstRow := by simpa using hhead
    show (if r.type = "string" then JValue.str s
          else if r.type = "number" then
            match jsNumberFinite s with
            | some n => JValue.num n
            | none => JValue.str s
          else if r.type = "boolean" then JValue.bool (s == "true")
          else if r.type = "null" then JValue.null
          else JValue.str s) = JValue.num 0
    rw [hty, if_neg (by decide), if_pos rfl, jsNumberFinite_ws s hws]

/-- Witness for C10: a single-space draft on a number-typed node saves the
number `0`. -/
theorem parseEdit_ws_number_zero_witness :
    jsonParse " " = none ∧
      parseEdit " " [⟨none, .null, "number"⟩] = .num 0 :=
  parseEdit_ws_number_zero " " [⟨none, .null, "number"⟩]
    ⟨none, .null, "number"⟩ (by decide) rfl rfl

/-- C8: the edit session resets to `{editing := false, editedValue := ""}`
whenever the selected node's identity changes or the surface is reopened, and
both fields are reset on cancel and on save (on save via the modal-closing
`opened` change the reset effect observes); as a consequence draft text never
carries over to a different node's edit session. -/
theorem editSession_reset (s : UIState) :
    (∀ id, id ≠ s.nodeId →
      (stepUI s (.selectNode id)).editing = false ∧
        (stepUI s (.selectNode id)).editedValue = "") ∧
    (s.opened = false →
      (stepUI s (.setOpened true)).editing = false ∧
        (stepUI s (.setOpened true)).editedValue = "") ∧
    ((stepUI s .cancelClick).editing = false ∧
      (stepUI s .cancelClick).editedValue = "") ∧
    (∀ hasPath, s.opened = true →
      (stepUI s (.saveClick hasPath)).editing = false ∧
        (stepUI s (.saveClick hasPath)).editedValue = "") := by
  refine ⟨?_, ?_, ?_, ?_⟩
  · intro id hid
    simp [stepUI, handleEvent, hid]
  · intro hop
    simp [stepUI, handleEvent, hop]
  · simp [stepUI, handleEvent]
  · intro hasPath hop
    cases hasPath <;> simp [stepUI, handleEvent, hop]

/-- Witness for C8: selecting a different node while editing discards the
draft; saving while the surface is open also resets both fields. -/
theorem editSession_reset_witness :
    ((stepUI ⟨true, "draft", true, some "n1"⟩
        (.selectNode (some "n2"))).editing = false ∧
      (stepUI ⟨true, "draft", true, some "n1"⟩
        (.selectNode (some "n2"))).editedValue = "") ∧
    ((stepUI ⟨true, "draft", true, some "n1"⟩
        (.saveClick true)).editing = false ∧
      (stepUI ⟨true, "draft", true, some "n1"⟩
        (.saveClick true)).editedValue = "") :=
  ⟨(editSession_reset ⟨true, "draft", true, some "n1"⟩).1 (some "n2")
      (by decide),
    (editSession_reset ⟨true, "draft", true, some "n1"⟩).2.2.2 true rfl⟩
